import Mathlib

/-!
Shallow embedding of the geni chroot session manager (src/geni):

* `util.py` — the file-backed counting semaphore `FileSemaphore`, the
  `FileInstaller` / `FileTempInst` file-copy helpers;
* `mount.py` — `Mount` and `MountsManager` (the mount stack);
* `chroot.py` — the `Chroot` session state machine
  (`prepare` / `clean_up` / `__enter__`).

External effects are modelled as explicit state: the filesystem is a
finite map from paths to contents plus a set of symlink paths, the
kernel mount table is a list of active mount points, and fallible shell
commands (`mount`, `umount`, the `--make-rslave` remount) consult a
schedule of boolean outcomes (an exhausted schedule means success).
Read-only commands (`mountpoint -q`, `diff`) and content-level commands
(`cp`, `rm`) are deterministic functions of the modelled state.
-/

namespace Geni

/-- Exceptions raised by the modelled Python code.  `processExecution`
stands for plumbum's `ProcessExecutionError` (a shell command exited
non-zero) and for `FileNotFoundError`-style OS errors of `rm`. -/
inductive PyErr where
  | valueError
  | processExecution
  | geniException (msg : String)
  | assertionError
  deriving DecidableEq, Repr

deriving instance DecidableEq for Except

/-! ### Decimal strings

`FileSemaphore` stores the counter as the Python `str()` of an `int`
and reads it back with `int(content.strip() or 0)`.  We model `str` on
integers (`intToDecimal`), `str.strip()` (`pyStrip`) and `int()` on a
stripped string (`pyInt`; ASCII digits with an optional sign —
underscore grouping and non-ASCII digits are not modelled). -/

/-- Decimal digit characters as produced by Python `str` on integers. -/
def digitChar (d : Nat) : Char :=
  if d = 0 then '0' else if d = 1 then '1' else if d = 2 then '2'
  else if d = 3 then '3' else if d = 4 then '4' else if d = 5 then '5'
  else if d = 6 then '6' else if d = 7 then '7' else if d = 8 then '8'
  else '9'

/-- Value of an ASCII decimal digit character, `none` otherwise. -/
def charDigitVal (c : Char) : Option Nat :=
  if c = '0' then some 0 else if c = '1' then some 1 else if c = '2' then some 2
  else if c = '3' then some 3 else if c = '4' then some 4 else if c = '5' then some 5
  else if c = '6' then some 6 else if c = '7' then some 7 else if c = '8' then some 8
  else if c = '9' then some 9 else none

/-- Little-endian decimal digits of `n`, with explicit fuel so the
definition is structural (the fuel `n` itself always suffices). -/
def toDigitsLEFuel : Nat → Nat → List Nat
  | 0, _ => []
  | fuel + 1, n => if n = 0 then [] else n % 10 :: toDigitsLEFuel fuel (n / 10)

def toDigitsLE (n : Nat) : List Nat := toDigitsLEFuel n n

def ofDigitsLE : List Nat → Nat
  | [] => 0
  | d :: ds => d + 10 * ofDigitsLE ds

/-- Decimal digit characters of `n`, most significant first. -/
def natDecimalChars (n : Nat) : List Char :=
  if n = 0 then ['0'] else ((toDigitsLE n).map digitChar).reverse

/-- Model of Python `str` on an `int`: decimal digits, with a leading
minus sign for negative values. -/
def intToDecimal (i : Int) : String :=
  match i with
  | .ofNat n => ⟨natDecimalChars n⟩
  | .negSucc n => ⟨'-' :: natDecimalChars (n + 1)⟩

/-- Parse a little-endian digit-character list. -/
def parseLE : List Char → Option Nat
  | [] => some 0
  | c :: cs =>
    match charDigitVal c, parseLE cs with
    | some d, some r => some (d + 10 * r)
    | _, _ => none

/-- Parse a non-empty, sign-free decimal string (most significant digit
first); `none` when empty or containing a non-digit. -/
def parseDigits (l : List Char) : Option Nat :=
  match l with
  | [] => none
  | _ :: _ => parseLE l.reverse

def pyStripList (l : List Char) : List Char :=
  ((l.dropWhile Char.isWhitespace).reverse.dropWhile Char.isWhitespace).reverse

/-- Python `str.strip()` with the default whitespace set. -/
def pyStrip (s : String) : String := ⟨pyStripList s.data⟩

/-- Python `int(s)` on an already-stripped string: an optional single
sign followed by a non-empty run of decimal digits; anything else
raises (`none`). -/
def pyInt (s : String) : Option Int :=
  match s.data with
  | [] => none
  | c :: rest =>
    if c = '-' then (parseDigits rest).map (fun n => -(n : Int))
    else if c = '+' then (parseDigits rest).map (fun n => (n : Int))
    else (parseDigits (c :: rest)).map (fun n => (n : Int))

/-! ### FileSemaphore (util.py, lines 89-137) -/

/-- On-disk state of one `FileSemaphore`: the content of the counter
file when it exists, and whether the lock file exists.  Between
operations the lock file is always absent: every operation creates it
on entry (`portalocker.Lock`) and removes it in its `finally` block. -/
structure SemState where
  semFile : Option String
  lockFile : Bool
  deriving DecidableEq, Repr

namespace FileSemaphore

/-- `int(lock_file.read().strip() or 0)` (util.py lines 100 and 114):
empty or all-whitespace content falls back to `0`; non-numeric content
raises `ValueError`. -/
def readContent (c : String) : Except PyErr Int :=
  let s := pyStrip c
  if s.data = [] then .ok 0
  else
    match pyInt s with
    | some n => .ok n
    | none => .error .valueError

/-- The counter value behind `sem_file_path`: a missing file reads as
`0` (util.py lines 97-102 and 111-116). -/
def readCounterOf (st : SemState) : Except PyErr Int :=
  match st.semFile with
  | some c => readContent c
  | none => .ok 0

/-- `FileSemaphore._read` (util.py lines 94-104): take the lock, read
the counter (0 when the file is missing), and always remove the lock
file in `finally`.  The counter file is not modified. -/
def read (st : SemState) : Except PyErr Int × SemState :=
  let st0 : SemState := { st with lockFile := true }
  (readCounterOf st0, { st0 with lockFile := false })

/-- `FileSemaphore._update` (util.py lines 106-128): under the lock,
read the counter (0 when the file is missing), apply `func`, write the
result back as `str(counter)`; in `finally` the lock file is always
removed and, when the resulting counter is exactly 0, the counter file
itself is removed.  If the read raises, `counter` keeps its `-1`
sentinel, so the counter file is not removed on that path. -/
def update (f : Int → Int) (st : SemState) : Except PyErr Int × SemState :=
  let st0 : SemState := { st with lockFile := true }
  match readCounterOf st0 with
  | .error e => (.error e, { st0 with lockFile := false })
  | .ok counter0 =>
    let counter := f counter0
    let st1 : SemState := { st0 with semFile := some (intToDecimal counter), lockFile := false }
    (.ok counter, if counter = 0 then { st1 with semFile := none } else st1)

/-- `FileSemaphore.down` (util.py lines 130-131). -/
def down (st : SemState) : Except PyErr Int × SemState := update (fun c => c - 1) st

/-- `FileSemaphore.get` (util.py lines 133-134). -/
def get (st : SemState) : Except PyErr Int × SemState := read st

/-- `FileSemaphore.up` (util.py lines 136-137). -/
def up (st : SemState) : Except PyErr Int × SemState := update (fun c => c + 1) st

end FileSemaphore

/-- The reachable well-formed semaphore states: the counter file is
absent exactly at value 0 (it starts absent and `_update` deletes it
whenever an update lands on 0), holds the decimal rendering of the
value otherwise, and the lock file is absent between operations. -/
def mkSem (k : Int) : SemState :=
  if k = 0 then ⟨none, false⟩ else ⟨some (intToDecimal k), false⟩

/-! ### Counter-level traces of enter()/exit()

`Chroot.prepare` performs exactly one `up()` on the shared counter and
`Chroot.clean_up` exactly one `down()` (chroot.py lines 77 and 112);
these are the only writers of the counter.  A trace of interleaved
`enter()`/`exit()` calls by any number of processes is therefore, at
the counter's level, a sequence of `up`/`down` operations. -/

inductive SemOp where
  | enterOp
  | exitOp
  deriving DecidableEq, Repr

def applySemOp : SemOp → SemState → Except PyErr Int × SemState
  | .enterOp, st => FileSemaphore.up st
  | .exitOp, st => FileSemaphore.down st

def runSemOps (ops : List SemOp) (st : SemState) : SemState :=
  ops.foldl (fun s op => (applySemOp op s).2) st

def countEnters : List SemOp → Nat
  | [] => 0
  | SemOp.enterOp :: l => countEnters l + 1
  | SemOp.exitOp :: l => countEnters l

def countExits : List SemOp → Nat
  | [] => 0
  | SemOp.enterOp :: l => countExits l
  | SemOp.exitOp :: l => countExits l + 1

/-! ### Filesystem and shell-command model -/

/-- The parts of the filesystem the embedded code touches: regular
files as a path-to-content association list, and the set of paths that
are symbolic links (for `os.path.islink`). -/
structure FS where
  files : List (String × String)
  symlinks : List String
  deriving DecidableEq, Repr

def FS.lookup (fs : FS) (p : String) : Option String :=
  (fs.files.find? (fun e => e.1 = p)).map (fun e => e.2)

def FS.setFile (fs : FS) (p c : String) : FS :=
  { fs with files := (p, c) :: fs.files.filter (fun e => ¬ e.1 = p) }

def FS.removeFile (fs : FS) (p : String) : FS :=
  { fs with files := fs.files.filter (fun e => ¬ e.1 = p) }

def FS.existsPath (fs : FS) (p : String) : Bool :=
  (fs.lookup p).isSome

/-- `str.lstrip("/")`. -/
def lstripSlash (s : String) : String := ⟨s.data.dropWhile (fun c => c = '/')⟩

/-- `os.path.join(base, rel)` for a relative `rel` (the code always
l-strips the leading slashes first): insert a separator unless the
base is empty or already ends with a slash. -/
def pathJoin (base rel : String) : String :=
  if base = "" then rel
  else if base.data.getLast? = some '/' then base ++ rel
  else base ++ "/" ++ rel

/-- `sudo cp --dereference src tgt`: fails when the source is missing,
otherwise (over)writes the target with the source's content. -/
def cmdCp (src tgt : String) (fs : FS) : Except PyErr FS :=
  match fs.lookup src with
  | some c => .ok (fs.setFile tgt c)
  | none => .error .processExecution

/-- `diff a b`: succeeds exactly when both files exist with equal
content (exits non-zero on difference, errors on a missing file). -/
def cmdDiff (a b : String) (fs : FS) : Except PyErr Unit :=
  match fs.lookup a, fs.lookup b with
  | some ca, some cb => if ca = cb then .ok () else .error .processExecution
  | _, _ => .error .processExecution

/-- `sudo rm p`: fails when the file does not exist. -/
def cmdRm (p : String) (fs : FS) : Except PyErr FS :=
  if fs.existsPath p then .ok (fs.removeFile p) else .error .processExecution

/-! ### Mounts (mount.py) -/

/-- Kernel mount events, for stating teardown ordering. -/
inductive MEvent where
  | mountedEv (mp : String)
  | unmountedEv (mp : String)
  deriving DecidableEq, Repr

/-- Ambient system state: the filesystem, the kernel mount table
(active mount points, most recent first), the schedule of outcomes for
fallible mount-table commands (exhausted schedule = success), and a
trace of performed mount/unmount events. -/
structure Sys where
  fs : FS
  world : List String
  sched : List Bool
  trace : List MEvent
  deriving DecidableEq, Repr

/-- Consume the next scheduled outcome (success when exhausted). -/
def Sys.nextOutcome : Sys → Bool × Sys
  | s =>
    match s.sched with
    | [] => (true, s)
    | b :: rest => (b, { s with sched := rest })

/-- One `Mount` object (mount.py lines 11-20): device, resolved mount
point, option list and the `make_rslave` flag. -/
structure MountRec where
  device : String
  mount_point : String
  opts : List String
  make_rslave : Bool
  deriving DecidableEq, Repr

/-- Remove the first occurrence of `x`, `none` when absent. -/
def removeOne (x : String) : List String → Option (List String)
  | [] => none
  | y :: ys => if y = x then some ys else (removeOne x ys).map (fun zs => y :: zs)

/-- `Mount.mount` (mount.py lines 33-37): run `sudo mount ...`; when
`make_rslave`, additionally run `sudo mount --make-rslave`, which can
fail after the mount itself already took effect. -/
def Mount.mount (m : MountRec) (s : Sys) : Except PyErr Unit × Sys :=
  match Sys.nextOutcome s with
  | (false, s1) => (.error .processExecution, s1)
  | (true, s1) =>
    let s2 : Sys := { s1 with world := m.mount_point :: s1.world,
                              trace := s1.trace ++ [.mountedEv m.mount_point] }
    if m.make_rslave then
      match Sys.nextOutcome s2 with
      | (false, s3) => (.error .processExecution, s3)
      | (true, s3) => (.ok (), s3)
    else (.ok (), s2)

/-- `Mount.umount` (mount.py lines 39-43): run `sudo umount [-R] mp`.
The command can fail by schedule (e.g. a busy target) and always fails
when the target is not currently mounted. -/
def Mount.umount (m : MountRec) (s : Sys) : Except PyErr Unit × Sys :=
  match Sys.nextOutcome s with
  | (false, s1) => (.error .processExecution, s1)
  | (true, s1) =>
    match removeOne m.mount_point s1.world with
    | none => (.error .processExecution, s1)
    | some w2 => (.ok (), { s1 with world := w2,
                                    trace := s1.trace ++ [.unmountedEv m.mount_point] })

/-- `MountsManager.add` (mount.py lines 98-100): the record is appended
to `self.mounts` BEFORE `mount_.mount()` runs, so it stays in the list
even when the mount command fails. -/
def MountsManager.add (m : MountRec) (mounts : List MountRec) (s : Sys) :
    Except PyErr Unit × List MountRec × Sys :=
  let mounts1 := mounts ++ [m]
  match Mount.mount m s with
  | (.ok _, s1) => (.ok (), mounts1, s1)
  | (.error e, s1) => (.error e, mounts1, s1)

/-- `MountsManager.mount` (mount.py lines 102-109): resolve the mount
point under `base_dir` and `add` a fresh record. -/
def MountsManager.mount (base_dir device directory : String) (opts : List String)
    (make_rslave : Bool) (mounts : List MountRec) (s : Sys) :
    Except PyErr Unit × List MountRec × Sys :=
  let mount_point := pathJoin base_dir (lstripSlash directory)
  MountsManager.add ⟨device, mount_point, opts, make_rslave⟩ mounts s

/-- Process the reversed stack front-to-back: each step pops one record
(it is gone from the remaining stack even if its unmount fails) and
unmounts it; an exception stops the loop. -/
def MountsManager.umountAllRev : List MountRec → Sys → Except PyErr Unit × List MountRec × Sys
  | [], s => (.ok (), [], s)
  | m :: rev, s =>
    match Mount.umount m s with
    | (.error e, s1) => (.error e, rev.reverse, s1)
    | (.ok _, s1) => MountsManager.umountAllRev rev s1

/-- `MountsManager.umount_all` (mount.py lines 111-113):
`while self.mounts: self.mounts.pop().umount()` — pop from the END of
the list, i.e. process the records in reverse insertion order. -/
def MountsManager.umount_all (ms : List MountRec) (s : Sys) :
    Except PyErr Unit × List MountRec × Sys :=
  MountsManager.umountAllRev ms.reverse s

/-! ### FileInstaller / FileTempInst (util.py lines 38-86 and 140-152) -/

structure FileInstaller where
  source_base_dir : String
  target_base_dir : String
  files : List String
  deriving DecidableEq, Repr

/-- `FileInstaller._make_source_path`. -/
def FileInstaller.make_source_path (fi : FileInstaller) (rel : String) : String :=
  pathJoin fi.source_base_dir (lstripSlash rel)

/-- `FileInstaller._make_target_path`. -/
def FileInstaller.make_target_path (fi : FileInstaller) (rel : String) : String :=
  pathJoin fi.target_base_dir (lstripSlash rel)

/-- `FileInstaller.copy` (util.py lines 58-63):
`sudo cp --dereference source target`, then record `rel_path`.  Note
`cp` overwrites an existing target. -/
def FileInstaller.copy (fi : FileInstaller) (rel : String) (fs : FS) :
    Except PyErr String × FileInstaller × FS :=
  let source_path := fi.make_source_path rel
  let target_path := fi.make_target_path rel
  match cmdCp source_path target_path fs with
  | .ok fs1 => (.ok target_path, { fi with files := fi.files ++ [rel] }, fs1)
  | .error e => (.error e, fi, fs)

/-- `FileInstaller.ensure_is_copied` (util.py lines 53-56):
`diff source target` — reports drift or absence as an error. -/
def FileInstaller.ensure_is_copied (fi : FileInstaller) (rel : String) (fs : FS) :
    Except PyErr Unit :=
  cmdDiff (fi.make_source_path rel) (fi.make_target_path rel) fs

/-- Body of `FileInstaller.uninstall_all`'s `while` loop on the
reversed `files` list: `rel_path = self.files.pop()` (so the entry is
gone even if the removal fails) then `self._remove(rel_path)`. -/
def FileInstaller.uninstallAllRev (tgt : String) :
    List String → FS → Except PyErr Unit × List String × FS
  | [], fs => (.ok (), [], fs)
  | rel :: rest, fs =>
    match cmdRm (pathJoin tgt (lstripSlash rel)) fs with
    | .error e => (.error e, rest.reverse, fs)
    | .ok fs1 => FileInstaller.uninstallAllRev tgt rest fs1

/-- `FileInstaller.uninstall_all` (util.py lines 83-86): pop from the
end of `files` and remove each target file. -/
def FileInstaller.uninstall_all (fi : FileInstaller) (fs : FS) :
    Except PyErr Unit × FileInstaller × FS :=
  match FileInstaller.uninstallAllRev fi.target_base_dir fi.files.reverse fs with
  | (r, remaining, fs1) => (r, { fi with files := remaining }, fs1)

/-- `FileTempInst` (util.py lines 140-152): a `FileInstaller` rooted at
`/` targeting the chroot directory, managing a single designated file. -/
structure FileTempInst where
  inst : FileInstaller
  file_path : String
  deriving DecidableEq, Repr

def FileTempInst.copy (ti : FileTempInst) (fs : FS) :
    Except PyErr String × FileTempInst × FS :=
  match FileInstaller.copy ti.inst ti.file_path fs with
  | (r, fi, fs1) => (r, { ti with inst := fi }, fs1)

def FileTempInst.ensure_is_copied (ti : FileTempInst) (fs : FS) : Except PyErr Unit :=
  FileInstaller.ensure_is_copied ti.inst ti.file_path fs

def FileTempInst.remove (ti : FileTempInst) (fs : FS) :
    Except PyErr Unit × FileTempInst × FS :=
  match FileInstaller.uninstall_all ti.inst fs with
  | (r, fi, fs1) => (r, { ti with inst := fi }, fs1)

/-! ### Chroot session (chroot.py lines 60-136) -/

/-- Outcome of a chroot-session operation: normal return, a raised
exception, or blocked forever in `clean_up`'s drain-polling `while`
loop (which, in a run with no other process mutating the counter,
never finishes once entered). -/
inductive Out (α : Type) where
  | ok (a : α)
  | err (e : PyErr)
  | blocked
  deriving DecidableEq, Repr

/-- The executor handed out by a successful `__enter__`. -/
structure ChrootExec where
  chroot_dir : String
  deriving DecidableEq, Repr

/-- Process-local state of one `Chroot` object plus the ambient system
state it acts on. -/
structure ChrootState where
  sem : SemState
  master : Bool
  mounts : List MountRec
  resolv_conf : FileTempInst
  sys : Sys
  deriving DecidableEq, Repr

/-- `Chroot.__init__` (chroot.py lines 61-74), minus the counter-file
path derivation (name hashing), which the claims do not touch: fresh
non-master state, empty mount stack, resolver installer
`FileTempInst(chroot_dir, "/etc/resolv.conf")`. -/
def Chroot.init (chroot_dir : String) (sem : SemState) (sys : Sys) : ChrootState :=
  ⟨sem, false, [], ⟨⟨"/", chroot_dir, []⟩, "/etc/resolv.conf"⟩, sys⟩

/-- `Chroot.ensure_all_mounted` (chroot.py lines 90-93): run
`mountpoint -q mp` for `mp` in `["/tmp", "/proc", "/sys", "/dev"]` —
these are the literal host-absolute paths from the source, NOT joined
with the chroot directory. -/
def Chroot.ensure_all_mounted (s : Sys) : Except PyErr Unit :=
  (["/tmp", "/proc", "/sys", "/dev"].forM fun mp =>
    if mp ∈ s.world then Except.ok () else Except.error PyErr.processExecution :
    Except PyErr Unit)

/-- `Chroot.mount_all` (chroot.py lines 95-106): tmpfs on `/tmp`, then
the `os.path.islink("/dev/shm")` check (again the literal host path),
then `/proc`, `/sys`, `/dev` (the latter three `--make-rslave`). -/
def Chroot.mount_all (chroot_dir : String) (st : ChrootState) :
    Except PyErr Unit × ChrootState :=
  match MountsManager.mount chroot_dir "geni_tmpfs" "/tmp" ["--types", "tmpfs"] false
      st.mounts st.sys with
  | (.error e, ms, s) => (.error e, { st with mounts := ms, sys := s })
  | (.ok _, ms1, s1) =>
    if "/dev/shm" ∈ s1.fs.symlinks then
      (.error (.geniException "/dev/shm is not a directory"), { st with mounts := ms1, sys := s1 })
    else
      match MountsManager.mount chroot_dir "/proc" "/proc" ["--types", "proc"] true ms1 s1 with
      | (.error e, ms, s) => (.error e, { st with mounts := ms, sys := s })
      | (.ok _, ms2, s2) =>
        match MountsManager.mount chroot_dir "/sys" "/sys" ["--rbind"] true ms2 s2 with
        | (.error e, ms, s) => (.error e, { st with mounts := ms, sys := s })
        | (.ok _, ms3, s3) =>
          match MountsManager.mount chroot_dir "/dev" "/dev" ["--rbind"] true ms3 s3 with
          | (.error e, ms, s) => (.error e, { st with mounts := ms, sys := s })
          | (.ok _, ms4, s4) => (.ok (), { st with mounts := ms4, sys := s4 })

/-- The two branches of `Chroot.prepare` (chroot.py lines 112-117):
`up() == 1` makes this process master and runs the resolver copy and
the full mount setup; otherwise `assert self.semaphore.get() > 1`. -/
def Chroot.prepareSetup (chroot_dir : String) (st : ChrootState) (v : Int) :
    Except PyErr Unit × ChrootState :=
  if v = 1 then
    let st1 : ChrootState := { st with master := true }
    match FileTempInst.copy st1.resolv_conf st1.sys.fs with
    | (.error e, ti, fs1) =>
      (.error e, { st1 with resolv_conf := ti, sys := { st1.sys with fs := fs1 } })
    | (.ok _, ti, fs1) =>
      Chroot.mount_all chroot_dir { st1 with resolv_conf := ti, sys := { st1.sys with fs := fs1 } }
  else
    match FileSemaphore.get st.sem with
    | (.error e, sem1) => (.error e, { st with sem := sem1 })
    | (.ok g, sem1) =>
      let st1 : ChrootState := { st with sem := sem1 }
      if g > 1 then (.ok (), st1) else (.error .assertionError, st1)

/-- `Chroot.prepare` (chroot.py lines 111-120): the `up()` and the
master/non-master branch, then in both branches
`resolv_conf.ensure_is_copied()` and `ensure_all_mounted()`. -/
def Chroot.prepare (chroot_dir : String) (st : ChrootState) :
    Except PyErr Unit × ChrootState :=
  match FileSemaphore.up st.sem with
  | (.error e, sem1) => (.error e, { st with sem := sem1 })
  | (.ok v, sem1) =>
    match Chroot.prepareSetup chroot_dir { st with sem := sem1 } v with
    | (.error e, st1) => (.error e, st1)
    | (.ok _, st1) =>
      match FileTempInst.ensure_is_copied st1.resolv_conf st1.sys.fs with
      | .error e => (.error e, st1)
      | .ok _ =>
        match Chroot.ensure_all_mounted st1.sys with
        | .error e => (.error e, st1)
        | .ok _ => (.ok (), st1)

/-- `Chroot.clean_up` (chroot.py lines 76-88): always `down()` first;
a master then polls `get()` until the counter has drained (in a run
where no peer mutates the counter this blocks forever unless it is
already ≤ 0), and tears down: `umount_all` and `resolv_conf.remove`
are BOTH attempted through an `ExceptionEater`, `master` is cleared,
and the first collected exception is re-raised. -/
def Chroot.clean_up (st : ChrootState) : Out Unit × ChrootState :=
  match FileSemaphore.down st.sem with
  | (.error e, sem1) => (.err e, { st with sem := sem1 })
  | (.ok _, sem1) =>
    let st1 : ChrootState := { st with sem := sem1 }
    if st1.master then
      match FileSemaphore.get st1.sem with
      | (.error e, sem2) => (.err e, { st1 with sem := sem2 })
      | (.ok g, sem2) =>
        let st2 : ChrootState := { st1 with sem := sem2 }
        if g > 0 then (.blocked, st2)
        else
          match MountsManager.umount_all st2.mounts st2.sys with
          | (r1, ms, s1) =>
            match FileTempInst.remove st2.resolv_conf s1.fs with
            | (r2, ti, fs2) =>
              let st3 : ChrootState :=
                { st2 with mounts := ms, sys := { s1 with fs := fs2 },
                           resolv_conf := ti, master := false }
              match r1 with
              | .error e => (.err e, st3)
              | .ok _ =>
                match r2 with
                | .error e => (.err e, st3)
                | .ok _ => (.ok (), st3)
    else (.ok (), st1)

/-- `Chroot.__enter__` (chroot.py lines 122-128): `prepare()`; on any
exception run `clean_up()` and re-raise (an exception raised inside
`clean_up` itself propagates instead of the original). -/
def Chroot.enter (chroot_dir : String) (st : ChrootState) : Out ChrootExec × ChrootState :=
  match Chroot.prepare chroot_dir st with
  | (.ok _, st1) => (.ok ⟨chroot_dir⟩, st1)
  | (.error e, st1) =>
    match Chroot.clean_up st1 with
    | (.ok _, st2) => (.err e, st2)
    | (.err e2, st2) => (.err e2, st2)
    | (.blocked, st2) => (.blocked, st2)

/-! ### Concrete states used by closed theorems -/

/-- Failing-master scenario: host resolver config present, empty mount
table, schedule making the fourth mount command (the `/sys` mount,
after tmpfs, the `/proc` mount and its `--make-rslave`) fail. -/
def stC3 : ChrootState :=
  Chroot.init "/cr" (mkSem 0) ⟨⟨[("/etc/resolv.conf", "ns")], []⟩, [], [true, true, true, false], []⟩

/-- Failing-master scenario with a missing host resolver config, so
the very first setup step (the resolver copy) fails. -/
def stC3w : ChrootState := Chroot.init "/w" (mkSem 0) ⟨⟨[], []⟩, [], [], []⟩

/-- Non-master scenario: one session already active, resolver config
already present and equal in the chroot tree, and the four HOST paths
mounted while none of the chroot-tree mount points is. -/
def stC6 : ChrootState :=
  Chroot.init "/g" (mkSem 1)
    ⟨⟨[("/etc/resolv.conf", "ns"), ("/g/etc/resolv.conf", "ns")], []⟩,
      ["/tmp", "/proc", "/sys", "/dev"], [], []⟩

/-- Non-master scenario used by the witness of the amended C6. -/
def stC6w : ChrootState :=
  Chroot.init "/h" (mkSem 2)
    ⟨⟨[("/etc/resolv.conf", "rc"), ("/h/etc/resolv.conf", "rc")], []⟩,
      ["/tmp", "/proc", "/sys", "/dev"], [], []⟩

/-- Master setup scenario where the CHROOT tree's `dev/shm` is a
symlink but the host's `/dev/shm` is not. -/
def stC7 : ChrootState :=
  Chroot.init "/g" (mkSem 1) ⟨⟨[], ["/g/dev/shm"]⟩, [], [], []⟩

/-- Master setup scenario where the host's `/dev/shm` is a symlink. -/
def stC7w : ChrootState :=
  Chroot.init "/h" (mkSem 1) ⟨⟨[], ["/dev/shm"]⟩, [], [], []⟩

/-- An installer rooted at `/` targeting `/g`, as `FileTempInst` builds. -/
def fiC8 : FileInstaller := ⟨"/", "/g", []⟩

/-- A tmpfs mount record for the C4/C5 concrete scenarios. -/
def mC4 : MountRec := ⟨"geni_tmpfs", "/g/tmp", ["--types", "tmpfs"], false⟩

/-! ## Lemmas: decimal round trip

`_update` writes `str(counter)` and later reads it back with
`int(content.strip() or 0)`; the round trip is the backbone of every
multi-operation semaphore fact. -/

theorem charDigitVal_digitChar (d : Nat) (h : d < 10) :
    charDigitVal (digitChar d) = some d := by
  interval_cases d <;> decide

theorem digitChar_not_ws (d : Nat) : (digitChar d).isWhitespace = false := by
  unfold digitChar
  split_ifs <;> decide

theorem digitChar_ne_minus (d : Nat) : digitChar d ≠ '-' := by
  unfold digitChar
  split_ifs <;> decide

theorem digitChar_ne_plus (d : Nat) : digitChar d ≠ '+' := by
  unfold digitChar
  split_ifs <;> decide

theorem ofDigits_toDigitsFuel : ∀ (fuel n : Nat), n ≤ fuel →
    ofDigitsLE (toDigitsLEFuel fuel n) = n := by
  intro fuel
  induction fuel with
  | zero => intro n h; interval_cases n; rfl
  | succ fuel ih =>
    intro n h
    by_cases hn : n = 0
    · simp [toDigitsLEFuel, hn, ofDigitsLE]
    · have hdiv : n / 10 ≤ fuel := by
        have hlt : n / 10 < n := Nat.div_lt_self (Nat.pos_of_ne_zero hn) (by norm_num)
        omega
      simp only [toDigitsLEFuel, hn, if_false, ofDigitsLE, ih (n / 10) hdiv]
      omega

theorem toDigitsFuel_lt10 : ∀ (fuel n d : Nat), d ∈ toDigitsLEFuel fuel n → d < 10 := by
  intro fuel
  induction fuel with
  | zero => intro n d h; simp [toDigitsLEFuel] at h
  | succ fuel ih =>
    intro n d h
    by_cases hn : n = 0
    · simp [toDigitsLEFuel, hn] at h
    · simp only [toDigitsLEFuel, hn, if_false, List.mem_cons] at h
      rcases h with h | h
      · omega
      · exact ih (n / 10) d h

theorem toDigitsFuel_ne_nil (fuel n : Nat) (hn : n ≠ 0) (h : n ≤ fuel) :
    toDigitsLEFuel fuel n ≠ [] := by
  cases fuel with
  | zero => omega
  | succ fuel => simp [toDigitsLEFuel, hn]

theorem parseLE_map_digitChar : ∀ (ds : List Nat), (∀ d ∈ ds, d < 10) →
    parseLE (ds.map digitChar) = some (ofDigitsLE ds) := by
  intro ds
  induction ds with
  | nil => intro _; rfl
  | cons d t ih =>
    intro h
    have hd : d < 10 := h d (by simp)
    simp only [List.map_cons, parseLE, charDigitVal_digitChar d hd,
      ih (fun x hx => h x (by simp [hx]))]
    rfl

theorem parse_natDecimalChars (n : Nat) : parseDigits (natDecimalChars n) = some n := by
  by_cases hn : n = 0
  · subst hn; decide
  · have hds : toDigitsLE n ≠ [] := toDigitsFuel_ne_nil n n hn le_rfl
    have hchars : natDecimalChars n = ((toDigitsLE n).map digitChar).reverse := by
      simp [natDecimalChars, hn]
    obtain ⟨c, cs, hc⟩ := List.exists_cons_of_ne_nil (l := natDecimalChars n) (by
      rw [hchars]
      simp [hds])
    rw [hc]
    show parseLE (c :: cs).reverse = some n
    rw [← hc, hchars, List.reverse_reverse,
      parseLE_map_digitChar (toDigitsLE n) (fun d hd => toDigitsFuel_lt10 n n d hd)]
    show some (ofDigitsLE (toDigitsLEFuel n n)) = some n
    rw [ofDigits_toDigitsFuel n n le_rfl]

theorem natDecimalChars_mem (n : Nat) {c : Char} (h : c ∈ natDecimalChars n) :
    ∃ d, c = digitChar d := by
  by_cases hn : n = 0
  · simp [natDecimalChars, hn] at h
    exact ⟨0, by simp [h]; rfl⟩
  · simp only [natDecimalChars, hn, if_false, List.mem_reverse, List.mem_map] at h
    obtain ⟨d, _, hd⟩ := h
    exact ⟨d, hd.symm⟩

theorem dropWhile_ws_of_all {l : List Char} (h : ∀ c ∈ l, c.isWhitespace = false) :
    l.dropWhile Char.isWhitespace = l := by
  cases l with
  | nil => rfl
  | cons a t =>
    rw [List.dropWhile_cons, h a (by simp)]
    simp

theorem pyStripList_id {l : List Char} (h : ∀ c ∈ l, c.isWhitespace = false) :
    pyStripList l = l := by
  unfold pyStripList
  rw [dropWhile_ws_of_all h,
    dropWhile_ws_of_all (fun c hc => h c (List.mem_reverse.mp hc)),
    List.reverse_reverse]

theorem natDecimalChars_ne_nil (n : Nat) : natDecimalChars n ≠ [] := by
  by_cases hn : n = 0
  · simp [natDecimalChars, hn]
  · simp [natDecimalChars, hn, toDigitsLE, toDigitsFuel_ne_nil n n hn le_rfl]

theorem pyInt_natDecimalChars (n : Nat) :
    pyInt ⟨natDecimalChars n⟩ = some (n : Int) := by
  obtain ⟨c, cs, hc⟩ := List.exists_cons_of_ne_nil (natDecimalChars_ne_nil n)
  obtain ⟨d, hd⟩ := natDecimalChars_mem n (c := c) (by rw [hc]; simp)
  rw [hc]
  show (if c = '-' then (parseDigits cs).map (fun m => -(m : Int))
    else if c = '+' then (parseDigits cs).map (fun m => (m : Int))
    else (parseDigits (c :: cs)).map (fun m => (m : Int))) = some (n : Int)
  rw [if_neg (hd ▸ digitChar_ne_minus d), if_neg (hd ▸ digitChar_ne_plus d), ← hc,
    parse_natDecimalChars n]
  rfl

theorem readContent_intToDecimal (k : Int) :
    FileSemaphore.readContent (intToDecimal k) = .ok k := by
  cases k with
  | ofNat n =>
    have hall : ∀ c ∈ natDecimalChars n, c.isWhitespace = false := by
      intro c hc
      obtain ⟨d, hd⟩ := natDecimalChars_mem n hc
      rw [hd]; exact digitChar_not_ws d
    have hstrip : pyStrip ⟨natDecimalChars n⟩ = ⟨natDecimalChars n⟩ := by
      show (⟨pyStripList (natDecimalChars n)⟩ : String) = _
      rw [pyStripList_id hall]
    show FileSemaphore.readContent ⟨natDecimalChars n⟩ = .ok (Int.ofNat n)
    unfold FileSemaphore.readContent
    rw [hstrip]
    rw [if_neg (by simpa using natDecimalChars_ne_nil n)]
    rw [pyInt_natDecimalChars n]
    rfl
  | negSucc n =>
    have hall : ∀ c ∈ '-' :: natDecimalChars (n + 1), c.isWhitespace = false := by
      intro c hc
      rcases List.mem_cons.mp hc with h | h
      · rw [h]; decide
      · obtain ⟨d, hd⟩ := natDecimalChars_mem (n + 1) h
        rw [hd]; exact digitChar_not_ws d
    have hstrip : pyStrip ⟨'-' :: natDecimalChars (n + 1)⟩ = ⟨'-' :: natDecimalChars (n + 1)⟩ := by
      show (⟨pyStripList ('-' :: natDecimalChars (n + 1))⟩ : String) = _
      rw [pyStripList_id hall]
    show FileSemaphore.readContent ⟨'-' :: natDecimalChars (n + 1)⟩ = .ok (Int.negSucc n)
    unfold FileSemaphore.readContent
    rw [hstrip]
    rw [if_neg (by simp)]
    have hpi : pyInt ⟨'-' :: natDecimalChars (n + 1)⟩ = some (Int.negSucc n) := by
      show (if '-' = '-' then (parseDigits (natDecimalChars (n + 1))).map (fun m => -(m : Int))
        else if '-' = '+' then (parseDigits (natDecimalChars (n + 1))).map (fun m => (m : Int))
        else (parseDigits ('-' :: natDecimalChars (n + 1))).map (fun m => (m : Int)))
          = some (Int.negSucc n)
      rw [if_pos rfl, parse_natDecimalChars (n + 1)]
      simp [Int.negSucc_eq]
    rw [hpi]

/-! ## Lemmas: semaphore steps on well-formed states -/

theorem update_mkSem (f : Int → Int) (k : Int) :
    FileSemaphore.update f (mkSem k) = (.ok (f k), mkSem (f k)) := by
  by_cases hk : k = 0 <;> by_cases hf : f k = 0 <;>
    simp [FileSemaphore.update, FileSemaphore.readCounterOf, readContent_intToDecimal,
      mkSem, hk, hf]

theorem up_mkSem (k : Int) :
    FileSemaphore.up (mkSem k) = (.ok (k + 1), mkSem (k + 1)) :=
  update_mkSem (fun c => c + 1) k

theorem down_mkSem (k : Int) :
    FileSemaphore.down (mkSem k) = (.ok (k - 1), mkSem (k - 1)) :=
  update_mkSem (fun c => c - 1) k

theorem get_mkSem (k : Int) :
    FileSemaphore.get (mkSem k) = (.ok k, mkSem k) := by
  by_cases hk : k = 0 <;>
    simp [FileSemaphore.get, FileSemaphore.read, FileSemaphore.readCounterOf,
      readContent_intToDecimal, mkSem, hk]

theorem runSemOps_mkSem : ∀ (ops : List SemOp) (k : Nat),
    (∀ n, countExits (ops.take n) ≤ k + countEnters (ops.take n)) →
    runSemOps ops (mkSem k) = mkSem ((k : Int) + countEnters ops - countExits ops) := by
  intro ops
  induction ops with
  | nil =>
    intro k h
    simp [runSemOps, countEnters, countExits]
  | cons op rest ih =>
    intro k h
    cases op with
    | enterOp =>
      have hstep : runSemOps (SemOp.enterOp :: rest) (mkSem k) =
          runSemOps rest (FileSemaphore.up (mkSem k)).2 := rfl
      have h2 : (FileSemaphore.up (mkSem k)).2 = mkSem ((k : Int) + 1) := by rw [up_mkSem]
      have hcast : ((k : Int) + 1) = ((k + 1 : Nat) : Int) := by push_cast; ring
      rw [hstep, h2, hcast, ih (k + 1) (fun n => by
        have h3 := h (n + 1)
        simp only [List.take_succ_cons, countEnters, countExits] at h3 ⊢
        omega)]
      congr 1
      simp only [countEnters, countExits]
      push_cast
      ring
    | exitOp =>
      have hk1 : 1 ≤ k := by
        have h1 := h 1
        simp only [List.take_succ_cons, List.take_zero, countEnters, countExits] at h1
        omega
      have hstep : runSemOps (SemOp.exitOp :: rest) (mkSem k) =
          runSemOps rest (FileSemaphore.down (mkSem k)).2 := rfl
      have h2 : (FileSemaphore.down (mkSem k)).2 = mkSem ((k : Int) - 1) := by rw [down_mkSem]
      have hcast : ((k : Int) - 1) = ((k - 1 : Nat) : Int) := by omega
      rw [hstep, h2, hcast, ih (k - 1) (fun n => by
        have h3 := h (n + 1)
        simp only [List.take_succ_cons, countEnters, countExits] at h3 ⊢
        omega)]
      congr 1
      simp only [countEnters, countExits]
      push_cast [Nat.cast_sub hk1]
      ring

/-! ## Claims about the persistent counter -/

/-- Claim C1: for every finite sequence of interleaved
`enter()`/`exit()` operations against one chroot identity in which
every `exit()` matches an earlier `enter()` (every prefix has at least
as many enters as exits), the persistent counter after all operations
equals the number of unmatched `enter()` calls, and the stored counter
value after every prefix is the number of unmatched enters so far,
hence never negative.  `enter()`/`exit()` act on the counter exactly
as `FileSemaphore.up`/`FileSemaphore.down` (chroot.py lines 112 and
77), which is how the trace is modelled. -/
theorem c1_counter_reflects_unmatched_enters (ops : List SemOp)
    (h : ∀ n, countExits (ops.take n) ≤ countEnters (ops.take n)) :
    ((FileSemaphore.get (runSemOps ops (mkSem 0))).1 =
      .ok ((countEnters ops : Int) - countExits ops)) ∧
    (∀ n, (FileSemaphore.get (runSemOps (ops.take n) (mkSem 0))).1 =
      .ok ((countEnters (ops.take n) : Int) - countExits (ops.take n))) ∧
    (∀ n, (0 : Int) ≤ (countEnters (ops.take n) : Int) - countExits (ops.take n)) := by
  have hrun : ∀ n, runSemOps (ops.take n) (mkSem 0) =
      mkSem ((countEnters (ops.take n) : Int) - countExits (ops.take n)) := by
    intro n
    have := runSemOps_mkSem (ops.take n) 0 (fun m => by
      rw [List.take_take]
      have := h (min m n)
      omega)
    simpa using this
  have hall : runSemOps ops (mkSem 0) =
      mkSem ((countEnters ops : Int) - countExits ops) := by
    have := runSemOps_mkSem ops 0 (fun m => by have := h m; omega)
    simpa using this
  refine ⟨?_, ?_, ?_⟩
  · rw [hall, get_mkSem]
  · intro n
    rw [hrun n, get_mkSem]
  · intro n
    have := h n
    omega

/-- Witness for C1 at the trace enter, enter, exit: the final counter
reads 1, the single unmatched enter. -/
theorem c1_witness :
    (FileSemaphore.get (runSemOps [SemOp.enterOp, SemOp.enterOp, SemOp.exitOp] (mkSem 0))).1 =
      .ok 1 := by
  have h := (c1_counter_reflects_unmatched_enters
    [SemOp.enterOp, SemOp.enterOp, SemOp.exitOp] (fun n => by
      rcases n with _ | _ | _ | m <;>
        simp [List.take_succ_cons, countEnters, countExits])).1
  simpa using h

/-- Claim C2: on every reachable counter state (value `k`, counter file
absent exactly at 0), `up()` increments the durable counter by exactly
1 and returns the new value, `down()` decrements by exactly 1 and
returns the new value, `get()` returns the current value without
mutating the stored state; a missing counter file reads as 0, and a
decrement landing exactly on 0 leaves the counter file deleted
(`(mkSem 0).semFile = none`, which is the state `down` produces there). -/
theorem c2_semaphore_contract (k : Int) :
    FileSemaphore.up (mkSem k) = (.ok (k + 1), mkSem (k + 1)) ∧
    FileSemaphore.down (mkSem k) = (.ok (k - 1), mkSem (k - 1)) ∧
    FileSemaphore.get (mkSem k) = (.ok k, mkSem k) ∧
    (FileSemaphore.get ⟨none, false⟩).1 = .ok 0 ∧
    (mkSem 0).semFile = none :=
  ⟨up_mkSem k, down_mkSem k, get_mkSem k, rfl, rfl⟩

/-- Witness for C2 at counter value 2. -/
theorem c2_witness :
    FileSemaphore.up (mkSem 2) = (.ok (2 + 1), mkSem (2 + 1)) ∧
    FileSemaphore.down (mkSem 2) = (.ok (2 - 1), mkSem (2 - 1)) :=
  ⟨(c2_semaphore_contract 2).1, (c2_semaphore_contract 2).2.1⟩

/-- Counterexample to claim C9: the counter file content `"abc"` is
non-numeric, yet `get()` raises `ValueError` instead of treating the
value as 0. -/
theorem c9_counterexample :
    (FileSemaphore.get ⟨some "abc", false⟩).1 = .error .valueError := by decide

/-- Claim C9 as amended: only EMPTY or all-whitespace counter-file
content is treated as 0 by `get()`/`up()`/`down()` (the `or 0` fallback
of `int(content.strip() or 0)`); non-empty non-numeric content makes
all three raise `ValueError`, leaving the counter file unchanged. -/
theorem c9_content_tolerance (c d : String) (h1 : pyStrip c = "")
    (h2 : pyStrip d ≠ "") (h3 : pyInt (pyStrip d) = none) :
    (FileSemaphore.get ⟨some c, false⟩ = (.ok 0, ⟨some c, false⟩) ∧
     FileSemaphore.up ⟨some c, false⟩ = (.ok 1, mkSem 1) ∧
     FileSemaphore.down ⟨some c, false⟩ = (.ok (-1), mkSem (-1))) ∧
    (FileSemaphore.get ⟨some d, false⟩ = (.error .valueError, ⟨some d, false⟩) ∧
     FileSemaphore.up ⟨some d, false⟩ = (.error .valueError, ⟨some d, false⟩) ∧
     FileSemaphore.down ⟨some d, false⟩ = (.error .valueError, ⟨some d, false⟩)) := by
  have hc : FileSemaphore.readContent c = .ok 0 := by
    unfold FileSemaphore.readContent
    rw [if_pos (by rw [h1])]
  have hd : FileSemaphore.readContent d = .error .valueError := by
    have hdata : ¬ (pyStrip d).data = [] := by
      intro hne
      apply h2
      have hrepr : pyStrip d = (⟨(pyStrip d).data⟩ : String) := rfl
      rw [hrepr, hne]
    unfold FileSemaphore.readContent
    rw [if_neg hdata, h3]
  refine ⟨⟨?_, ?_, ?_⟩, ?_, ?_, ?_⟩
  · simp [FileSemaphore.get, FileSemaphore.read, FileSemaphore.readCounterOf, hc]
  · simp [FileSemaphore.up, FileSemaphore.update, FileSemaphore.readCounterOf, hc, mkSem]
  · simp [FileSemaphore.down, FileSemaphore.update, FileSemaphore.readCounterOf, hc, mkSem]
  · simp [FileSemaphore.get, FileSemaphore.read, FileSemaphore.readCounterOf, hd]
  · simp [FileSemaphore.up, FileSemaphore.update, FileSemaphore.readCounterOf, hd]
  · simp [FileSemaphore.down, FileSemaphore.update, FileSemaphore.readCounterOf, hd]

/-- Witness for the amended C9: whitespace-only content reads as 0,
`"abc"` raises. -/
theorem c9_witness :
    FileSemaphore.get ⟨some " ", false⟩ = (.ok 0, ⟨some " ", false⟩) ∧
    FileSemaphore.get ⟨some "abc", false⟩ = (.error .valueError, ⟨some "abc", false⟩) :=
  ⟨((c9_content_tolerance " " "abc" (by decide) (by decide) (by decide)).1).1,
   ((c9_content_tolerance " " "abc" (by decide) (by decide) (by decide)).2).1⟩

/-- Claim C10: `down()` is unguarded below zero — on a missing counter
file (value 0) it returns -1 and leaves a counter file containing
`"-1"` (the file is only deleted when the resulting value is exactly
0), and a subsequent `up()` returns 0, not 1 (and deletes the file). -/
theorem c10_down_unguarded :
    FileSemaphore.down ⟨none, false⟩ = (.ok (-1), ⟨some "-1", false⟩) ∧
    FileSemaphore.up ⟨some "-1", false⟩ = (.ok 0, ⟨none, false⟩) := by
  constructor <;> decide

/-! ## Lemmas: mount layer -/

theorem nextOutcome_world (s : Sys) : (Sys.nextOutcome s).2.world = s.world := by
  rcases s with ⟨fs, w, sched, tr⟩
  cases sched <;> rfl

theorem Mount.mount_sched_nil (m : MountRec) (fs : FS) (w : List String) (tr : List MEvent) :
    Mount.mount m ⟨fs, w, [], tr⟩ =
      (.ok (), ⟨fs, m.mount_point :: w, [], tr ++ [.mountedEv m.mount_point]⟩) := by
  cases h : m.make_rslave <;> simp [Mount.mount, Sys.nextOutcome, h]

theorem Mount.mount_sched_false (m : MountRec) (fs : FS) (w : List String)
    (bs : List Bool) (tr : List MEvent) :
    Mount.mount m ⟨fs, w, false :: bs, tr⟩ = (.error .processExecution, ⟨fs, w, bs, tr⟩) := by
  simp [Mount.mount, Sys.nextOutcome]

theorem removeOne_head (x : String) (ys : List String) : removeOne x (x :: ys) = some ys := by
  simp [removeOne]

theorem Mount.umount_sched_nil (m : MountRec) (fs : FS) (w w2 : List String)
    (tr : List MEvent) (h : removeOne m.mount_point w = some w2) :
    Mount.umount m ⟨fs, w, [], tr⟩ =
      (.ok (), ⟨fs, w2, [], tr ++ [.unmountedEv m.mount_point]⟩) := by
  simp [Mount.umount, Sys.nextOutcome, h]

theorem Mount.umount_sched_false (m : MountRec) (fs : FS) (w : List String)
    (bs : List Bool) (tr : List MEvent) :
    Mount.umount m ⟨fs, w, false :: bs, tr⟩ = (.error .processExecution, ⟨fs, w, bs, tr⟩) := by
  simp [Mount.umount, Sys.nextOutcome]

theorem Mount.mount_ok_world (m : MountRec) (s s1 : Sys) (u : Unit)
    (h : Mount.mount m s = (.ok u, s1)) : m.mount_point ∈ s1.world := by
  rcases s with ⟨fs, w, sched, tr⟩
  cases sched with
  | nil =>
    rw [Mount.mount_sched_nil] at h
    rw [Prod.mk.injEq] at h
    rw [← h.2]
    simp
  | cons bhead bs =>
    cases bhead
    · rw [Mount.mount_sched_false] at h
      exact absurd h (by simp)
    · cases hr : m.make_rslave
      · simp only [Mount.mount, Sys.nextOutcome, hr, Bool.false_eq_true, if_false] at h
        rw [Prod.mk.injEq] at h
        rw [← h.2]
        simp
      · cases bs with
        | nil =>
          simp only [Mount.mount, Sys.nextOutcome, hr, if_true] at h
          rw [Prod.mk.injEq] at h
          rw [← h.2]
          simp
        | cons b2 bs2 =>
          cases b2
          · simp only [Mount.mount, Sys.nextOutcome, hr, if_true] at h
            exact absurd h (by simp)
          · simp only [Mount.mount, Sys.nextOutcome, hr, if_true] at h
            rw [Prod.mk.injEq] at h
            rw [← h.2]
            simp

theorem MountsManager.add_mounts_eq (m : MountRec) (ms : List MountRec) (s : Sys) :
    (MountsManager.add m ms s).2.1 = ms ++ [m] := by
  unfold MountsManager.add
  rcases h : Mount.mount m s with ⟨r, s1⟩
  rcases r <;> simp [h]

theorem MountsManager.add_ok_world (m : MountRec) (ms : List MountRec) (s : Sys)
    (h : (MountsManager.add m ms s).1 = .ok ()) :
    m.mount_point ∈ (MountsManager.add m ms s).2.2.world := by
  unfold MountsManager.add at h ⊢
  rcases hm : Mount.mount m s with ⟨r, s1⟩
  rcases r with e | u
  · rw [hm] at h
    simp at h
  · have hmem : m.mount_point ∈ s1.world := Mount.mount_ok_world m s s1 u hm
    simp [hm, hmem]

/-! ## Claims about the mount stack -/

/-- Counterexample to claim C4: with a schedule making the mount
command fail, `add` leaves the record in the stack even though its
mount point was never mounted (the record is appended BEFORE
`mount_.mount()` runs, mount.py lines 98-100), so "whenever a record is
in the stack it is mounted" fails across a failing `mount()`. -/
theorem c4_counterexample :
    (MountsManager.add mC4 [] ⟨⟨[], []⟩, [], [false], []⟩).1 = .error .processExecution ∧
    (MountsManager.add mC4 [] ⟨⟨[], []⟩, [], [false], []⟩).2.1 = [mC4] ∧
    mC4.mount_point ∉ (MountsManager.add mC4 [] ⟨⟨[], []⟩, [], [false], []⟩).2.2.world := by
  decide

/-- Claim C4 as amended: `add` appends the record to the stack before
mounting — on success the record is in the stack with its mount point
active, but on a failing mount it remains in the stack while nothing
was mounted; `umount_all` pops before unmounting — when the unmount
command fails the popped record is gone from the stack while its mount
point is still active.  The invariant of the claim holds only for the
operations whose underlying commands succeed. -/
theorem c4_mount_stack_discipline (m : MountRec)
    (msA : List MountRec) (sA : Sys) (hA : (MountsManager.add m msA sA).1 = .ok ())
    (msB : List MountRec) (fsB : FS) (wB : List String) (bsB : List Bool) (trB : List MEvent)
    (hBw : m.mount_point ∉ wB)
    (rest : List MountRec) (fsC : FS) (wC : List String) (bsC : List Bool) (trC : List MEvent)
    (hCw : m.mount_point ∈ wC) :
    ((MountsManager.add m msA sA).2.1 = msA ++ [m] ∧
      m.mount_point ∈ (MountsManager.add m msA sA).2.2.world) ∧
    ((MountsManager.add m msB ⟨fsB, wB, false :: bsB, trB⟩).2.1 = msB ++ [m] ∧
      (MountsManager.add m msB ⟨fsB, wB, false :: bsB, trB⟩).1 = .error .processExecution ∧
      m.mount_point ∉ (MountsManager.add m msB ⟨fsB, wB, false :: bsB, trB⟩).2.2.world) ∧
    ((MountsManager.umount_all (rest ++ [m]) ⟨fsC, wC, false :: bsC, trC⟩).2.1 = rest ∧
      (MountsManager.umount_all (rest ++ [m]) ⟨fsC, wC, false :: bsC, trC⟩).1 =
        .error .processExecution ∧
      m.mount_point ∈ (MountsManager.umount_all (rest ++ [m]) ⟨fsC, wC, false :: bsC, trC⟩).2.2.world) := by
  refine ⟨⟨MountsManager.add_mounts_eq m msA sA, MountsManager.add_ok_world m msA sA hA⟩,
    ?_, ?_⟩
  · constructor
    · exact MountsManager.add_mounts_eq m msB _
    · unfold MountsManager.add
      rw [Mount.mount_sched_false]
      simp [hBw]
  · unfold MountsManager.umount_all
    rw [show (rest ++ [m]).reverse = m :: rest.reverse by simp]
    unfold MountsManager.umountAllRev
    rw [Mount.umount_sched_false]
    simp [hCw]

/-- Witness for the amended C4: a successful add mounts and stacks the
record; a failed unmount pops the record anyway. -/
theorem c4_witness :
    mC4.mount_point ∈ (MountsManager.add mC4 [] ⟨⟨[], []⟩, [], [], []⟩).2.2.world ∧
    (MountsManager.umount_all [mC4] ⟨⟨[], []⟩, ["/g/tmp"], [false], []⟩).2.1 = [] ∧
    mC4.mount_point ∈ (MountsManager.umount_all [mC4] ⟨⟨[], []⟩, ["/g/tmp"], [false], []⟩).2.2.world := by
  have h := c4_mount_stack_discipline mC4 [] ⟨⟨[], []⟩, [], [], []⟩ (by decide)
    [] ⟨[], []⟩ [] [] [] (by decide)
    [] ⟨[], []⟩ ["/g/tmp"] [] [] (by decide)
  exact ⟨h.1.2, h.2.2.1, h.2.2.2.2⟩

/-- Claim C5: for every three mounts A, B, C added (in that order,
with succeeding commands) to an empty stack, `umount_all()` unmounts
C, then B, then A — the exact reverse of the mount order — and leaves
the stack empty. -/
theorem c5_umount_all_reverse_order (a b c : MountRec) (fs : FS) (w : List String)
    (tr : List MEvent) :
    (MountsManager.add a [] ⟨fs, w, [], tr⟩ =
      (.ok (), [a], ⟨fs, a.mount_point :: w, [], tr ++ [.mountedEv a.mount_point]⟩)) ∧
    (MountsManager.add b [a] ⟨fs, a.mount_point :: w, [], tr ++ [.mountedEv a.mount_point]⟩ =
      (.ok (), [a, b], ⟨fs, b.mount_point :: a.mount_point :: w, [],
        tr ++ [.mountedEv a.mount_point, .mountedEv b.mount_point]⟩)) ∧
    (MountsManager.add c [a, b] ⟨fs, b.mount_point :: a.mount_point :: w, [],
        tr ++ [.mountedEv a.mount_point, .mountedEv b.mount_point]⟩ =
      (.ok (), [a, b, c], ⟨fs, c.mount_point :: b.mount_point :: a.mount_point :: w, [],
        tr ++ [.mountedEv a.mount_point, .mountedEv b.mount_point, .mountedEv c.mount_point]⟩)) ∧
    (MountsManager.umount_all [a, b, c]
        ⟨fs, c.mount_point :: b.mount_point :: a.mount_point :: w, [],
          tr ++ [.mountedEv a.mount_point, .mountedEv b.mount_point, .mountedEv c.mount_point]⟩ =
      (.ok (), [], ⟨fs, w, [],
        tr ++ [.mountedEv a.mount_point, .mountedEv b.mount_point, .mountedEv c.mount_point,
          .unmountedEv c.mount_point, .unmountedEv b.mount_point, .unmountedEv a.mount_point]⟩)) := by
  refine ⟨?_, ?_, ?_, ?_⟩
  · unfold MountsManager.add
    rw [Mount.mount_sched_nil]
    simp
  · unfold MountsManager.add
    rw [Mount.mount_sched_nil]
    simp
  · unfold MountsManager.add
    rw [Mount.mount_sched_nil]
    simp
  · unfold MountsManager.umount_all
    rw [show ([a, b, c] : List MountRec).reverse = [c, b, a] by simp]
    unfold MountsManager.umountAllRev
    rw [Mount.umount_sched_nil c _ _ _ _ (removeOne_head _ _)]
    unfold MountsManager.umountAllRev
    rw [Mount.umount_sched_nil b _ _ _ _ (removeOne_head _ _)]
    unfold MountsManager.umountAllRev
    rw [Mount.umount_sched_nil a _ _ _ _ (removeOne_head _ _)]
    unfold MountsManager.umountAllRev
    simp

/-- Witness for C5 at three concrete mounts. -/
theorem c5_witness :
    MountsManager.umount_all
        [⟨"geni_tmpfs", "/g/tmp", ["--types", "tmpfs"], false⟩,
         ⟨"/proc", "/g/proc", ["--types", "proc"], true⟩,
         ⟨"/sys", "/g/sys", ["--rbind"], true⟩]
        ⟨⟨[], []⟩, ["/g/sys", "/g/proc", "/g/tmp"], [],
          [.mountedEv "/g/tmp", .mountedEv "/g/proc", .mountedEv "/g/sys"]⟩ =
      (.ok (), [], ⟨⟨[], []⟩, [], [],
        [.mountedEv "/g/tmp", .mountedEv "/g/proc", .mountedEv "/g/sys",
         .unmountedEv "/g/sys", .unmountedEv "/g/proc", .unmountedEv "/g/tmp"]⟩) := by
  have h := (c5_umount_all_reverse_order
    ⟨"geni_tmpfs", "/g/tmp", ["--types", "tmpfs"], false⟩
    ⟨"/proc", "/g/proc", ["--types", "proc"], true⟩
    ⟨"/sys", "/g/sys", ["--rbind"], true⟩
    ⟨[], []⟩ [] []).2.2.2
  simpa using h

/-! ## Lemmas: chroot session -/

theorem Chroot.mount_all_keeps (cd : String) (st : ChrootState) :
    (Chroot.mount_all cd st).2.sem = st.sem ∧
    (Chroot.mount_all cd st).2.master = st.master ∧
    (Chroot.mount_all cd st).2.resolv_conf = st.resolv_conf := by
  unfold Chroot.mount_all
  repeat' split
  all_goals simp

theorem Chroot.prepareSetup_on_mkSem (cd : String) (st : ChrootState) (v : Int)
    (hsem : st.sem = mkSem v) :
    (Chroot.prepareSetup cd st v).2.sem = mkSem v ∧
    (Chroot.prepareSetup cd st v).2.master = (if v = 1 then true else st.master) := by
  unfold Chroot.prepareSetup
  by_cases hv : v = 1
  · rw [if_pos hv, if_pos hv]
    rcases hcopy : FileTempInst.copy ({ st with master := true } : ChrootState).resolv_conf
        ({ st with master := true } : ChrootState).sys.fs with ⟨rc, ti, fs1⟩
    rcases rc with e | p
    · simp [hcopy, hsem]
    · have hk := Chroot.mount_all_keeps cd
        { st with master := true, resolv_conf := ti, sys := { st.sys with fs := fs1 } }
      simp only [hcopy]
      exact ⟨by simpa [hsem] using hk.1, by simpa using hk.2.1⟩
  · rw [if_neg hv, if_neg hv]
    rw [show (FileSemaphore.get st.sem) = FileSemaphore.get (mkSem v) from by rw [hsem]]
    rw [get_mkSem]
    by_cases hg : v > 1 <;> simp [hg, hsem]

theorem Chroot.prepare_sem_and_master (cd : String) (st : ChrootState) (k : Int)
    (hsem : st.sem = mkSem k) :
    (Chroot.prepare cd st).2.sem = mkSem (k + 1) ∧
    (Chroot.prepare cd st).2.master = (if k = 0 then true else st.master) := by
  have hiff : ((k : Int) + 1 = 1) ↔ (k = 0) := by omega
  unfold Chroot.prepare
  rw [show FileSemaphore.up st.sem = (.ok (k + 1), mkSem (k + 1)) from by rw [hsem, up_mkSem]]
  have hps := Chroot.prepareSetup_on_mkSem cd { st with sem := mkSem (k + 1) } (k + 1) (by simp)
  rcases hq : Chroot.prepareSetup cd { st with sem := mkSem (k + 1) } (k + 1) with ⟨r, st1⟩
  rw [hq] at hps
  simp only at hps
  rcases r with e | u
  · simp only [hq]
    exact ⟨hps.1, by rw [hps.2]; simp [hiff]⟩
  · simp only [hq]
    rcases hec : FileTempInst.ensure_is_copied st1.resolv_conf st1.sys.fs with e2 | u2
    · simp only [hec]
      exact ⟨hps.1, by rw [hps.2]; simp [hiff]⟩
    · rcases hem : Chroot.ensure_all_mounted st1.sys with e3 | u3
      · simp only [hec, hem]
        exact ⟨hps.1, by rw [hps.2]; simp [hiff]⟩
      · simp only [hec, hem]
        exact ⟨hps.1, by rw [hps.2]; simp [hiff]⟩

theorem Chroot.clean_up_nonmaster (st : ChrootState) (k : Int)
    (hsem : st.sem = mkSem k) (hm : st.master = false) :
    Chroot.clean_up st = (.ok (), { st with sem := mkSem (k - 1) }) := by
  unfold Chroot.clean_up
  rw [show FileSemaphore.down st.sem = (.ok (k - 1), mkSem (k - 1)) from by rw [hsem, down_mkSem]]
  simp [hm]

theorem Chroot.clean_up_master_one (st : ChrootState)
    (hsem : st.sem = mkSem 1) (hm : st.master = true) :
    (Chroot.clean_up st).2.sem = mkSem 0 ∧ (Chroot.clean_up st).2.master = false := by
  unfold Chroot.clean_up
  rw [show FileSemaphore.down st.sem = (.ok 0, mkSem 0) from by
    rw [hsem, down_mkSem]; norm_num]
  rcases hu : MountsManager.umount_all st.mounts st.sys with ⟨r1, ms, s1⟩
  rcases hr : FileTempInst.remove st.resolv_conf s1.fs with ⟨r2, ti, fs2⟩
  rcases r1 with e1 | u1 <;> rcases r2 with e2 | u2 <;>
    simp [hm, get_mkSem, hu, hr]

/-! ## Claims about the chroot session -/

/-- Counterexample to claim C3: master enter with the `/sys` mount
failing (schedule `[true, true, true, false]`).  `clean_up()` runs and
the counter is decremented, but `umount_all` first pops the `/sys`
record — which was appended to the stack before its failed mount — and
its unmount fails (nothing is mounted there), which aborts the unwind
inside the `ExceptionEater`; the tmpfs and `/proc` mounts performed
before the failure are NOT unmounted: they are still in the mount
table when the error propagates. -/
theorem c3_counterexample :
    (∃ e, (Chroot.enter "/cr" stC3).1 = .err e) ∧
    "/cr/tmp" ∈ (Chroot.enter "/cr" stC3).2.sys.world ∧
    "/cr/proc" ∈ (Chroot.enter "/cr" stC3).2.sys.world := by
  refine ⟨⟨.processExecution, by decide⟩, by decide, by decide⟩

/-- Claim C3 as amended: if `enter()` fails at any point during setup,
`clean_up()` is invoked before the error propagates, so the counter is
restored to its pre-enter value (decremented even for the failed
entrant) and the session is left non-master; `umount_all()` is
attempted, but because the failed mount's record was appended to the
stack before mounting, unmounting it fails and aborts the unwind, so
mounts performed before the failure can remain mounted. -/
theorem c3_cleanup_on_enter_failure (cd : String) (st : ChrootState) (k : Int) (e : PyErr)
    (hk : 0 ≤ k) (hsem : st.sem = mkSem k) (hm : st.master = false)
    (herr : (Chroot.enter cd st).1 = .err e) :
    (Chroot.enter cd st).2.sem = mkSem k ∧ (Chroot.enter cd st).2.master = false := by
  have hps := Chroot.prepare_sem_and_master cd st k hsem
  rcases hp : Chroot.prepare cd st with ⟨r, st1⟩
  rw [hp] at hps
  simp only at hps
  rcases r with e0 | u
  · by_cases hk0 : k = 0
    · have h1 : st1.sem = mkSem 1 := by rw [hps.1, hk0]; norm_num
      have h2 : st1.master = true := by rw [hps.2]; simp [hk0]
      have hcu := Chroot.clean_up_master_one st1 h1 h2
      rcases hc : Chroot.clean_up st1 with ⟨r2, st2⟩
      rw [hc] at hcu
      simp only at hcu
      subst hk0
      rcases r2 with u2 | e2 | _
      · have henter : Chroot.enter cd st = (.err e0, st2) := by
          unfold Chroot.enter
          rw [hp]
          dsimp only
          rw [hc]
        rw [henter]
        exact hcu
      · have henter : Chroot.enter cd st = (.err e2, st2) := by
          unfold Chroot.enter
          rw [hp]
          dsimp only
          rw [hc]
        rw [henter]
        exact hcu
      · have henter : Chroot.enter cd st = (.blocked, st2) := by
          unfold Chroot.enter
          rw [hp]
          dsimp only
          rw [hc]
        rw [henter] at herr
        simp at herr
    · have h2 : st1.master = false := by rw [hps.2]; simp [hk0, hm]
      have hcu := Chroot.clean_up_nonmaster st1 (k + 1) hps.1 h2
      have henter : Chroot.enter cd st = (.err e0, { st1 with sem := mkSem (k + 1 - 1) }) := by
        unfold Chroot.enter
        rw [hp]
        dsimp only
        rw [hcu]
      rw [henter]
      refine ⟨?_, ?_⟩
      · show mkSem (k + 1 - 1) = mkSem k
        congr 1
        ring
      · show st1.master = false
        exact h2
  · have henter : Chroot.enter cd st = (.ok ⟨cd⟩, st1) := by
      unfold Chroot.enter
      rw [hp]
    rw [henter] at herr
    simp at herr

/-- Witness for the amended C3: master enter failing at the resolver
copy (missing host `/etc/resolv.conf`); the counter is back at its
pre-enter value 0 and the session is non-master. -/
theorem c3_witness :
    (Chroot.enter "/w" stC3w).2.sem = mkSem 0 ∧ (Chroot.enter "/w" stC3w).2.master = false :=
  c3_cleanup_on_enter_failure "/w" stC3w 0 .processExecution (by norm_num) rfl rfl (by decide)

/-- Counterexample to claim C6: in `stC6` one session is already
active (counter 1), the resolver config matches, and the four HOST
paths `/tmp`, `/proc`, `/sys`, `/dev` are mount points while NONE of
the chroot tree's own mount points (`/g/tmp`, `/g/proc`, `/g/sys`,
`/g/dev`) is mounted.  `enter()` nevertheless succeeds and yields an
executor: the non-master validation checks the literal host paths
(chroot.py line 92-93), not the chroot tree's mount points, refuting
"validates that the core mount points of the chroot tree are already
active ... before yielding an Executor". -/
theorem c6_counterexample :
    (Chroot.enter "/g" stC6).1 = .ok ⟨"/g"⟩ ∧
    "/g/tmp" ∉ stC6.sys.world ∧ "/g/proc" ∉ stC6.sys.world ∧
    "/g/sys" ∉ stC6.sys.world ∧ "/g/dev" ∉ stC6.sys.world ∧
    (Chroot.enter "/g" stC6).2.sys.world = stC6.sys.world ∧
    (Chroot.enter "/g" stC6).2.mounts = [] := by
  refine ⟨by decide, by decide, by decide, by decide, by decide, by decide, by decide⟩

/-- Claim C6 as amended: for every `enter()` whose `up()` returns a
value greater than 1 (pre-enter counter `k ≥ 1`), the process does not
become master and performs no mounts or copies — the resulting state
differs from the input only in the incremented counter — the
`get() > 1` assertion passes, and the operation succeeds exactly when
the resolver config diff passes and the four literal host-absolute
paths `/tmp`, `/proc`, `/sys`, `/dev` (NOT joined with the chroot
directory) are mount points. -/
theorem c6_nonmaster_validation (cd : String) (st : ChrootState) (k : Int)
    (hk : 1 ≤ k) (hsem : st.sem = mkSem k) :
    (Chroot.prepare cd st).2 = { st with sem := mkSem (k + 1) } ∧
    ((Chroot.prepare cd st).1 = .ok () ↔
      (FileTempInst.ensure_is_copied st.resolv_conf st.sys.fs = .ok () ∧
       Chroot.ensure_all_mounted st.sys = .ok ())) := by
  unfold Chroot.prepare
  rw [show FileSemaphore.up st.sem = (.ok (k + 1), mkSem (k + 1)) from by rw [hsem, up_mkSem]]
  dsimp only
  unfold Chroot.prepareSetup
  rw [if_neg (show ¬((k : Int) + 1 = 1) from by omega)]
  dsimp only
  rw [get_mkSem]
  dsimp only
  rw [if_pos (show (k : Int) + 1 > 1 from by omega)]
  dsimp only
  rcases hec : FileTempInst.ensure_is_copied st.resolv_conf st.sys.fs with e2 | u2 <;>
    rcases hem : Chroot.ensure_all_mounted st.sys with e3 | u3 <;>
      simp [hec, hem]

/-- Witness for the amended C6 at `stC6w` (pre-enter counter 2). -/
theorem c6_witness :
    (Chroot.prepare "/h" stC6w).2 = { stC6w with sem := mkSem (2 + 1) } :=
  (c6_nonmaster_validation "/h" stC6w 2 (by norm_num) rfl).1

/-- Counterexample to claim C7: in `stC7` the CHROOT tree's `dev/shm`
(`/g/dev/shm`) is a symbolic link, yet master setup does not fail: all
four mounts are performed, because the code checks the literal host
path `/dev/shm` (chroot.py line 98), not the chroot tree's. -/
theorem c7_counterexample :
    "/g/dev/shm" ∈ stC7.sys.fs.symlinks ∧
    (Chroot.mount_all "/g" stC7).1 = .ok () ∧
    (Chroot.mount_all "/g" stC7).2.sys.world = ["/g/dev", "/g/sys", "/g/proc", "/g/tmp"] := by
  refine ⟨by decide, by decide, by decide⟩

/-- Claim C7 as amended: when the HOST's `/dev/shm` is a symbolic link
(the code checks the literal path `/dev/shm`, not the chroot tree's),
master setup raises `GeniException` after the tmpfs mount of `/tmp`
and before the `/proc`, `/sys`, `/dev` mounts are attempted. -/
theorem c7_dev_shm_check (cd : String) (st : ChrootState)
    (hl : "/dev/shm" ∈ st.sys.fs.symlinks) (hs : st.sys.sched = []) :
    (Chroot.mount_all cd st).1 = .error (.geniException "/dev/shm is not a directory") ∧
    (Chroot.mount_all cd st).2.mounts =
      st.mounts ++ [⟨"geni_tmpfs", pathJoin cd "tmp", ["--types", "tmpfs"], false⟩] ∧
    (Chroot.mount_all cd st).2.sys.world = pathJoin cd "tmp" :: st.sys.world ∧
    (Chroot.mount_all cd st).2.sys.trace = st.sys.trace ++ [.mountedEv (pathJoin cd "tmp")] := by
  rcases st with ⟨sem, mst, ms, rc, ⟨fs, w, sched, tr⟩⟩
  simp only at hl hs ⊢
  subst hs
  unfold Chroot.mount_all MountsManager.mount MountsManager.add
  rw [show lstripSlash "/tmp" = "tmp" from by decide]
  dsimp only
  rw [Mount.mount_sched_nil]
  simp [hl]

/-- Witness for the amended C7 at `stC7w` (host `/dev/shm` a symlink). -/
theorem c7_witness :
    (Chroot.mount_all "/h" stC7w).1 = .error (.geniException "/dev/shm is not a directory") ∧
    (Chroot.mount_all "/h" stC7w).2.sys.world = [pathJoin "/h" "tmp"] :=
  ⟨(c7_dev_shm_check "/h" stC7w (by decide) rfl).1,
   (c7_dev_shm_check "/h" stC7w (by decide) rfl).2.2.1⟩

/-- Counterexample to claim C8: the target `/g/etc/resolv.conf`
already exists (content `"old"`), yet `copy()` succeeds and the target
now holds the host's content `"new"` — `cp --dereference` overwrites
instead of raising. -/
theorem c8_counterexample :
    FS.lookup ⟨[("/g/etc/resolv.conf", "old"), ("/etc/resolv.conf", "new")], []⟩
        "/g/etc/resolv.conf" = some "old" ∧
    (FileInstaller.copy fiC8 "/etc/resolv.conf"
        ⟨[("/g/etc/resolv.conf", "old"), ("/etc/resolv.conf", "new")], []⟩).1 =
      .ok "/g/etc/resolv.conf" ∧
    ((FileInstaller.copy fiC8 "/etc/resolv.conf"
        ⟨[("/g/etc/resolv.conf", "old"), ("/etc/resolv.conf", "new")], []⟩).2.2).lookup
        "/g/etc/resolv.conf" = some "new" := by
  refine ⟨by decide, by decide, by decide⟩

/-- Claim C8 as amended: `copy()` never fails because the target
exists — when the source exists it succeeds and (over)writes the
target with the source's content, recording the path; it fails only
when the SOURCE is missing, leaving everything unchanged. -/
theorem c8_copy_overwrites (fi : FileInstaller) (rel : String)
    (fsA : FS) (content : String)
    (hA : fsA.lookup (FileInstaller.make_source_path fi rel) = some content)
    (fsB : FS) (hB : fsB.lookup (FileInstaller.make_source_path fi rel) = none) :
    FileInstaller.copy fi rel fsA =
      (.ok (FileInstaller.make_target_path fi rel),
        { fi with files := fi.files ++ [rel] },
        FS.setFile fsA (FileInstaller.make_target_path fi rel) content) ∧
    FileInstaller.copy fi rel fsB = (.error .processExecution, fi, fsB) := by
  constructor
  · unfold FileInstaller.copy cmdCp
    dsimp only
    rw [hA]
  · unfold FileInstaller.copy cmdCp
    dsimp only
    rw [hB]

/-- Witness for the amended C8: copying over an existing target
succeeds and overwrites; copying a missing source fails. -/
theorem c8_witness :
    FileInstaller.copy fiC8 "/etc/hosts" ⟨[("/etc/hosts", "h"), ("/g/etc/hosts", "x")], []⟩ =
      (.ok "/g/etc/hosts", { fiC8 with files := ["/etc/hosts"] },
        FS.setFile ⟨[("/etc/hosts", "h"), ("/g/etc/hosts", "x")], []⟩ "/g/etc/hosts" "h") ∧
    FileInstaller.copy fiC8 "/etc/hosts" ⟨[], []⟩ = (.error .processExecution, fiC8, ⟨[], []⟩) := by
  have h := c8_copy_overwrites fiC8 "/etc/hosts"
    ⟨[("/etc/hosts", "h"), ("/g/etc/hosts", "x")], []⟩ "h" (by decide) ⟨[], []⟩ (by decide)
  exact ⟨h.1, h.2⟩

end Geni
